import Mathlib

/-!
Shallow embedding of marclopezsoler/notiflow,
src/components/NotificationManager/NotificationManager.tsx.

The manager partitions the live notification list into anchor buckets,
caps each bucket at 7 rendered cards, and assigns stacking indices using
a per-bucket counter plus a side map of previously held indices.  The
card component computes themed colors and implements the pointer
drag-to-dismiss gesture.  Pixel coordinates are modelled as integers;
a comparison Math.hypot(x, y) > t with t nonnegative is modelled as
x * x + y * y > t * t, which is equivalent over the integers.
-/

/-- Vertical anchor component of an alignment. -/
inductive VAlign where
  | top
  | bottom
deriving Repr, DecidableEq

/-- Horizontal anchor component of an alignment. -/
inductive HAlign where
  | left
  | middle
  | right
deriving Repr, DecidableEq

/-- Notification type, from the NotificationProps type union. -/
inductive NType where
  | success
  | error
  | info
  | alert
  | none
deriving Repr, DecidableEq

/-- ColoredMode union: how much of the theme is applied. -/
inductive ColoredMode where
  | full
  | border
  | none
deriving Repr, DecidableEq

/-- ThemeMode union: global light or dark mode. -/
inductive ThemeMode where
  | light
  | dark
deriving Repr, DecidableEq

/-- NotificationThemeType: one theme record of the palette. -/
structure NotificationThemeType where
  backgroundColor : String
  borderColor : String
  fontColor : String
deriving Repr, DecidableEq

/-- NotificationProps as consumed by the manager and the card.  Function
and node valued props (onClick, customIcon) are modelled by their
presence, which is all the rendering logic inspects. -/
structure NotificationProps where
  id : String
  message : String := ""
  subMessage : Option String := Option.none
  type : NType := NType.info
  theme : Option NotificationThemeType := Option.none
  hasIcon : Bool := false
  isExiting : Bool := false
  canClose : Bool := false
  align : Option (VAlign × HAlign) := Option.none
  colored : Option ColoredMode := Option.none
  hasOnClick : Bool := false
  hasCustomIcon : Bool := false
deriving Repr, DecidableEq

/-- String form of a vertical anchor, as used in bucket keys. -/
def VAlign.toKey : VAlign → String
  | VAlign.top => "top"
  | VAlign.bottom => "bottom"

/-- String form of a horizontal anchor, as used in bucket keys. -/
def HAlign.toKey : HAlign → String
  | HAlign.left => "left"
  | HAlign.middle => "middle"
  | HAlign.right => "right"

/-- ORDER: the fixed bucket priority list of the manager. -/
def ORDER : List String :=
  ["top-left", "top-middle", "top-right",
   "bottom-left", "bottom-middle", "bottom-right"]

/-- Bucket key of a notification: the string v-h built from its align
tuple, defaulting to top-middle when align is absent
(const [v = "top", h = "middle"] = n.align ?? ["top", "middle"]). -/
def bucketKey (n : NotificationProps) : String :=
  match n.align with
  | Option.some (v, h) => VAlign.toKey v ++ "-" ++ HAlign.toKey h
  | Option.none => "top" ++ "-" ++ "middle"

/-- The group for one key: entries of the list whose bucket key matches,
in list order.  This is the per-key list the groups accumulator builds. -/
def groupFor (notifications : List NotificationProps) (key : String) :
    List NotificationProps :=
  notifications.filter (fun n => bucketKey n = key)

/-- The previousIndexes side map, keyed by notification id. -/
abbrev PrevMap := List (String × Nat)

/-- Lookup in the side map (previousIndexes.current[id]). -/
def lookupPrev : PrevMap → String → Option Nat
  | [], _ => Option.none
  | (k, v) :: rest, i => if k = i then Option.some v else lookupPrev rest i

/-- Assignment previousIndexes.current[id] = v. -/
def insertPrev (m : PrevMap) (i : String) (v : Nat) : PrevMap :=
  (i, v) :: m.filter (fun p => p.1 ≠ i)

/-- The useEffect cleanup: delete every side-map key whose id is not in
the live notification list. -/
def cleanupPrev (notifications : List NotificationProps) (m : PrevMap) :
    PrevMap :=
  m.filter (fun p => (notifications.map (fun n => n.id)).contains p.1)

/-- One card emitted by the manager: the id, the stacking index passed as
the index prop, and the exiting flag. -/
structure RenderedCard where
  id : String
  index : Nat
  isExiting : Bool
deriving Repr, DecidableEq

/-- The bucket.slice(0, 7).map body: walks the capped bucket with the
mutable activeIndex counter and the previousIndexes map, emitting one
card per entry and writing each entry's current index into the map. -/
def renderBucketGo : List NotificationProps → PrevMap → Nat →
    List RenderedCard × PrevMap
  | [], prev, _ => ([], prev)
  | n :: rest, prev, activeIndex =>
    let currentIndex :=
      if n.isExiting then (lookupPrev prev n.id).getD activeIndex
      else activeIndex
    let nextActive := if n.isExiting then activeIndex else activeIndex + 1
    let prev2 := insertPrev prev n.id currentIndex
    let r := renderBucketGo rest prev2 nextActive
    (⟨n.id, currentIndex, n.isExiting⟩ :: r.1, r.2)

/-- Rendering of one bucket: cap at the first 7 entries (slice(0, 7)),
counter starts at 0 for each bucket. -/
def renderBucket (bucket : List NotificationProps) (prev : PrevMap) :
    List RenderedCard × PrevMap :=
  renderBucketGo (bucket.take 7) prev 0

/-- The full render pass: process buckets in ORDER, threading the
previousIndexes map through; an absent bucket contributes nothing, which
coincides with rendering the empty group. -/
def renderAll (notifications : List NotificationProps) (prev : PrevMap) :
    List RenderedCard × PrevMap :=
  ORDER.foldl
    (fun acc key =>
      let r := renderBucket (groupFor notifications key) acc.2
      (acc.1 ++ r.1, r.2))
    ([], prev)

/-- Count of non-exiting cards in a rendered list; the per-bucket counter
value before position i is this count over the prefix of length i. -/
def countActive (l : List RenderedCard) : Nat :=
  (l.filter (fun c => !c.isExiting)).length

/-- Palette selection: mode === "light" ? lightTheme : darkTheme. -/
def paletteFor (lightTheme darkTheme : NType → NotificationThemeType)
    (mode : ThemeMode) : NType → NotificationThemeType :=
  match mode with
  | ThemeMode.light => lightTheme
  | ThemeMode.dark => darkTheme

/-- The computed color triple of a card. -/
structure ComputedColors where
  bg : String
  border : String
  color : String
deriving Repr, DecidableEq

/-- computeColors from the card component: base is the user theme when
given, otherwise the palette entry for the type; the none entry of the
palette backs the uncolored parts. -/
def computeColors (colored : ColoredMode) (type : NType)
    (userTheme : Option NotificationThemeType)
    (lightTheme darkTheme : NType → NotificationThemeType)
    (mode : ThemeMode) : ComputedColors :=
  let palette := paletteFor lightTheme darkTheme mode
  let base := userTheme.getD (palette type)
  let noneTheme := palette NType.none
  match colored with
  | ColoredMode.border =>
    ⟨noneTheme.backgroundColor, base.borderColor, base.fontColor⟩
  | ColoredMode.none =>
    ⟨noneTheme.backgroundColor, noneTheme.borderColor, noneTheme.fontColor⟩
  | ColoredMode.full =>
    ⟨base.backgroundColor, base.borderColor, base.fontColor⟩

/-- A pixel coordinate pair (clientX and clientY of a pointer event, or a
drag offset). -/
structure Vec2 where
  x : Int
  y : Int
deriving Repr, DecidableEq

/-- DRAG_CLOSE_DISTANCE constant of the card component. -/
def DRAG_CLOSE_DISTANCE : Int := 100

/-- DRAG_RELEASE_PUSH constant of the card component. -/
def DRAG_RELEASE_PUSH : Int := 120

/-- Boolean form of Math.hypot(x, y) > t for a nonnegative threshold t:
equivalent to x * x + y * y > t * t over the integers. -/
def hypotGt (x y t : Int) : Bool := t * t < x * x + y * y

/-- Per-card gesture state: the drag offset (dragOffset state and
dragOffsetRef always hold the same pair, both written only through
updateDragOffset, so one field models both), the drag start reference,
the click-suppression flag, the drag-out latch, and a counter of
exitNotification calls made by this card.  Pointer capture and release
are browser effects with no bearing on this state. -/
structure CardState where
  dragOffset : Vec2 := ⟨0, 0⟩
  dragStart : Option Vec2 := Option.none
  clickSuppressed : Bool := false
  isDraggingOut : Bool := false
  exitCalls : Nat := 0
deriving Repr, DecidableEq

/-- finalizeDrag: on close, push each axis outward by DRAG_RELEASE_PUSH
when its magnitude exceeds 6, then call exitNotification; otherwise snap
the offset back to zero. -/
def finalizeDrag (shouldClose : Bool) (s : CardState) : CardState :=
  let x := s.dragOffset.x
  let y := s.dragOffset.y
  let shouldPushX : Bool := 6 < x.natAbs
  let shouldPushY : Bool := 6 < y.natAbs
  if shouldClose then
    { s with
      dragOffset :=
        ⟨x + (if shouldPushX then x.sign * DRAG_RELEASE_PUSH else 0),
         y + (if shouldPushY then y.sign * DRAG_RELEASE_PUSH else 0)⟩,
      exitCalls := s.exitCalls + 1 }
  else
    { s with dragOffset := ⟨0, 0⟩ }

/-- handlePointerDown: record the start coordinates and clear the
click-suppression flag. -/
def handlePointerDown (c : Vec2) (s : CardState) : CardState :=
  { s with dragStart := Option.some c, clickSuppressed := false }

/-- handlePointerMove: with no recorded start, do nothing.  Otherwise set
the offset to current minus start, suppress the click beyond 4 px of
movement, and past DRAG_CLOSE_DISTANCE with the latch clear set the
latch, finalize with close, and drop the start reference.  The source
condition also re-tests dragStartRef.current, which is necessarily
non-null on this path. -/
def handlePointerMove (c : Vec2) (s : CardState) : CardState :=
  match s.dragStart with
  | Option.none => s
  | Option.some start =>
    let dx := c.x - start.x
    let dy := c.y - start.y
    let s1 := { s with dragOffset := ⟨dx, dy⟩ }
    let s2 :=
      if hypotGt dx dy 4 then { s1 with clickSuppressed := true } else s1
    if hypotGt dx dy DRAG_CLOSE_DISTANCE && !s2.isDraggingOut then
      let s3 := { s2 with isDraggingOut := true }
      let s4 := finalizeDrag true s3
      { s4 with dragStart := Option.none }
    else s2

/-- handlePointerUp: with no recorded start, do nothing.  Otherwise
finalize with close exactly when the recorded offset magnitude exceeds
DRAG_CLOSE_DISTANCE, then clear the start reference and the latch. -/
def handlePointerUp (s : CardState) : CardState :=
  match s.dragStart with
  | Option.none => s
  | Option.some _ =>
    let s1 :=
      finalizeDrag (hypotGt s.dragOffset.x s.dragOffset.y
        DRAG_CLOSE_DISTANCE) s
    { s1 with dragStart := Option.none, isDraggingOut := false }

/-- handlePointerCancel: with no recorded start, do nothing.  Otherwise
finalize without close (snap back), then clear the start reference and
the latch. -/
def handlePointerCancel (s : CardState) : CardState :=
  match s.dragStart with
  | Option.none => s
  | Option.some _ =>
    let s1 := finalizeDrag false s
    { s1 with dragStart := Option.none, isDraggingOut := false }

/-- The onClick handler attached when an onClick prop is provided: when
the suppression flag is set, clear it and swallow the click; otherwise
invoke the prop (second component true means the prop ran). -/
def handleClick (s : CardState) : CardState × Bool :=
  if s.clickSuppressed then ({ s with clickSuppressed := false }, false)
  else (s, true)

/-- A pointer event delivered to one card. -/
inductive CardEvent where
  | pointerDown (c : Vec2)
  | pointerMove (c : Vec2)
  | pointerUp
  | pointerCancel
deriving Repr, DecidableEq

/-- Dispatch of one pointer event to its handler. -/
def step (s : CardState) (e : CardEvent) : CardState :=
  match e with
  | CardEvent.pointerDown c => handlePointerDown c s
  | CardEvent.pointerMove c => handlePointerMove c s
  | CardEvent.pointerUp => handlePointerUp s
  | CardEvent.pointerCancel => handlePointerCancel s

/-- Whether an event is a pointer-down or pointer-move. -/
def isDownOrMove : CardEvent → Bool
  | CardEvent.pointerDown _ => true
  | CardEvent.pointerMove _ => true
  | CardEvent.pointerUp => false
  | CardEvent.pointerCancel => false

/-- Stated from the spec words, for comparison with the code: every
rendered entry whose isExiting flag is set receives the index recorded
for its id in the side map as it stood before the bucket was walked. -/
def specExitingUsesRecordedIndex (bucket : List NotificationProps)
    (prev : PrevMap) : Prop :=
  ∀ c ∈ (renderBucket bucket prev).1,
    c.isExiting = true → lookupPrev prev c.id = Option.some c.index

/-- Stated from the spec words, for comparison with the code: on
pointer-up during a drag not already auto-closed, displacement at or
beyond the 100 px threshold triggers exit, and displacement below it
snaps the offset back to zero without exit. -/
def specPointerUpExitAtThreshold (s : CardState) : Prop :=
  s.dragStart.isSome = true → s.isDraggingOut = false →
    ((DRAG_CLOSE_DISTANCE * DRAG_CLOSE_DISTANCE ≤
        s.dragOffset.x * s.dragOffset.x + s.dragOffset.y * s.dragOffset.y →
      (handlePointerUp s).exitCalls = s.exitCalls + 1) ∧
     (s.dragOffset.x * s.dragOffset.x + s.dragOffset.y * s.dragOffset.y <
        DRAG_CLOSE_DISTANCE * DRAG_CLOSE_DISTANCE →
      (handlePointerUp s).exitCalls = s.exitCalls ∧
        (handlePointerUp s).dragOffset = ⟨0, 0⟩))

/-- Stated from the spec words, for comparison with the code: every
pointer-cancel event resets the drag offset to zero and triggers no
exit, regardless of the state it arrives in. -/
def specCancelAlwaysResets (s : CardState) : Prop :=
  (handlePointerCancel s).dragOffset = ⟨0, 0⟩ ∧
    (handlePointerCancel s).exitCalls = s.exitCalls

/-- A bucket of a single already-exiting entry whose id has no record in
the side map: the code falls back to the counter for its index. -/
def exitingNoRecord : NotificationProps :=
  { id := "a", isExiting := true }

/-- A card state whose pointer-up arrives with displacement magnitude
exactly 100: at the threshold, the code does not exit. -/
def stateAtThreshold : CardState :=
  { dragOffset := ⟨100, 0⟩, dragStart := Option.some ⟨0, 0⟩ }

/-- A card state after a move auto-close: the start reference is gone
and the offset is nonzero; a pointer-cancel here changes nothing. -/
def stateAfterAutoClose : CardState :=
  { dragOffset := ⟨225, 0⟩, dragStart := Option.none,
    isDraggingOut := true, exitCalls := 1 }

theorem renderBucketGo_map_id (l : List NotificationProps) :
    ∀ (prev : PrevMap) (a : Nat),
      (renderBucketGo l prev a).1.map RenderedCard.id =
        l.map NotificationProps.id := by
  induction l with
  | nil => intro prev a; rfl
  | cons n rest ih => intro prev a; simp [renderBucketGo, ih]

theorem renderBucketGo_length (l : List NotificationProps) :
    ∀ (prev : PrevMap) (a : Nat),
      (renderBucketGo l prev a).1.length = l.length := by
  induction l with
  | nil => intro prev a; rfl
  | cons n rest ih => intro prev a; simp [renderBucketGo, ih]

/-- C1: for every snapshot of the live list and every side-map state, a
bucket renders exactly the first seven entries of the bucket in list
order (their ids in order, at most seven cards), and an entry beyond the
seventh position is not among the rendered cards while the earlier ones
remain ahead of it in the list. -/
theorem rendered_bucket_caps_at_first7 (bucket : List NotificationProps)
    (prev : PrevMap) (hnd : (bucket.map NotificationProps.id).Nodup) :
    (renderBucket bucket prev).1.map RenderedCard.id =
      (bucket.take 7).map NotificationProps.id ∧
    (renderBucket bucket prev).1.length = min 7 bucket.length ∧
    ∀ n ∈ bucket.drop 7,
      n.id ∉ (renderBucket bucket prev).1.map RenderedCard.id := by
  have hmap := renderBucketGo_map_id (bucket.take 7) prev 0
  refine ⟨hmap, ?_, ?_⟩
  · rw [renderBucket, renderBucketGo_length, List.length_take]
  · have hsplit :
        ((bucket.take 7).map NotificationProps.id ++
          (bucket.drop 7).map NotificationProps.id).Nodup := by
      rw [← List.map_append, List.take_append_drop]; exact hnd
    rcases List.nodup_append.mp hsplit with ⟨_, _, hdisj⟩
    intro n hn hmem
    rw [renderBucket] at hmem
    rw [hmap] at hmem
    exact hdisj hmem (List.mem_map_of_mem NotificationProps.id hn)

/-- Witness for C1 at a concrete eight-entry bucket: the eighth entry is
in the tail past the cap and its id is not rendered. -/
theorem rendered_bucket_caps_at_first7_witness :
    ({ id := "h" } : NotificationProps) ∈
      (["a", "b", "c", "d", "e", "f", "g", "h"].map
        (fun i => ({ id := i } : NotificationProps))).drop 7 ∧
    ("h" : String) ∉
      (renderBucket
        (["a", "b", "c", "d", "e", "f", "g", "h"].map
          (fun i => ({ id := i } : NotificationProps))) []).1.map
        RenderedCard.id := by
  refine ⟨by decide, ?_⟩
  exact
    (rendered_bucket_caps_at_first7
      (["a", "b", "c", "d", "e", "f", "g", "h"].map
        (fun i => ({ id := i } : NotificationProps))) []
      (by decide)).2.2 { id := "h" } (by decide)

theorem countActive_cons (c : RenderedCard) (l : List RenderedCard) :
    countActive (c :: l) =
      (if c.isExiting then 0 else 1) + countActive l := by
  cases hc : c.isExiting
  · simp [countActive, List.filter_cons, hc, Nat.add_comm]
  · simp [countActive, List.filter_cons, hc]

theorem lookupPrev_filter_ne (m : PrevMap) (k i : String) (h : i ≠ k) :
    lookupPrev (m.filter (fun p => p.1 ≠ k)) i = lookupPrev m i := by
  have hki : ¬ k = i := fun hc => h hc.symm
  induction m with
  | nil => rfl
  | cons p rest ih =>
    rcases p with ⟨pk, pv⟩
    simp only [ne_eq, decide_not] at ih
    by_cases hk : pk = k
    · have hpi : ¬ pk = i := by rw [hk]; exact hki
      simp only [List.filter_cons, lookupPrev]
      simp [hk, hpi, hki, ih]
    · simp only [List.filter_cons, lookupPrev]
      by_cases hpi : pk = i
      · simp [hk, hpi, h, lookupPrev]
      · simp [hk, hpi, ih, lookupPrev]

theorem lookupPrev_insertPrev_ne (m : PrevMap) (k i : String) (v : Nat)
    (h : i ≠ k) :
    lookupPrev (insertPrev m k v) i = lookupPrev m i := by
  have hk : ¬ k = i := fun hc => h hc.symm
  simp only [insertPrev, lookupPrev, hk, if_false]
  exact lookupPrev_filter_ne m k i h

theorem renderBucketGo_index (l : List NotificationProps) :
    ∀ (prev : PrevMap) (a : Nat),
      (l.map NotificationProps.id).Nodup →
      ∀ (i : Nat) (h : i < (renderBucketGo l prev a).1.length),
        ((renderBucketGo l prev a).1.get ⟨i, h⟩).index =
          if ((renderBucketGo l prev a).1.get ⟨i, h⟩).isExiting then
            (lookupPrev prev
                (((renderBucketGo l prev a).1.get ⟨i, h⟩).id)).getD
              (a + countActive ((renderBucketGo l prev a).1.take i))
          else a + countActive ((renderBucketGo l prev a).1.take i) := by
  induction l with
  | nil =>
    intro prev a _ i h
    simp [renderBucketGo] at h
  | cons n rest ih =>
    intro prev a hnd i h
    rw [List.map_cons, List.nodup_cons] at hnd
    obtain ⟨hnotin, hnd2⟩ := hnd
    have hstep : (renderBucketGo (n :: rest) prev a).1 =
        ⟨n.id, if n.isExiting then (lookupPrev prev n.id).getD a else a,
          n.isExiting⟩ ::
          (renderBucketGo rest
            (insertPrev prev n.id
              (if n.isExiting then (lookupPrev prev n.id).getD a else a))
            (if n.isExiting then a else a + 1)).1 := rfl
    match i with
    | 0 =>
      cases hne : n.isExiting <;>
        simp [hstep, List.get, countActive, hne]
    | Nat.succ j =>
      have h2 : j < (renderBucketGo rest
          (insertPrev prev n.id
            (if n.isExiting then (lookupPrev prev n.id).getD a else a))
          (if n.isExiting then a else a + 1)).1.length := by
        have hh := h
        rw [hstep] at hh
        simpa using hh
      have hget : ((renderBucketGo (n :: rest) prev a).1.get
            ⟨Nat.succ j, h⟩) =
          ((renderBucketGo rest
            (insertPrev prev n.id
              (if n.isExiting then (lookupPrev prev n.id).getD a else a))
            (if n.isExiting then a else a + 1)).1.get ⟨j, h2⟩) := by
        rw [List.get_of_eq hstep]; rfl
      have hmem : ((renderBucketGo rest
            (insertPrev prev n.id
              (if n.isExiting then (lookupPrev prev n.id).getD a else a))
            (if n.isExiting then a else a + 1)).1.get ⟨j, h2⟩).id ≠ n.id := by
        intro hcontra
        apply hnotin
        rw [← hcontra, ← renderBucketGo_map_id rest
          (insertPrev prev n.id
            (if n.isExiting then (lookupPrev prev n.id).getD a else a))
          (if n.isExiting then a else a + 1)]
        exact List.mem_map_of_mem RenderedCard.id (List.get_mem _ j h2)
      have hlook : lookupPrev
            (insertPrev prev n.id
              (if n.isExiting then (lookupPrev prev n.id).getD a else a))
            (((renderBucketGo rest
              (insertPrev prev n.id
                (if n.isExiting then (lookupPrev prev n.id).getD a else a))
              (if n.isExiting then a else a + 1)).1.get ⟨j, h2⟩).id) =
          lookupPrev prev
            (((renderBucketGo rest
              (insertPrev prev n.id
                (if n.isExiting then (lookupPrev prev n.id).getD a else a))
              (if n.isExiting then a else a + 1)).1.get ⟨j, h2⟩).id) :=
        lookupPrev_insertPrev_ne prev n.id _ _ hmem
      have htake : ((renderBucketGo (n :: rest) prev a).1.take
            (Nat.succ j)) =
          ⟨n.id, if n.isExiting then (lookupPrev prev n.id).getD a else a,
            n.isExiting⟩ ::
            ((renderBucketGo rest
              (insertPrev prev n.id
                (if n.isExiting then (lookupPrev prev n.id).getD a else a))
              (if n.isExiting then a else a + 1)).1.take j) := by
        rw [hstep, List.take_succ_cons]
      have harith : (if n.isExiting then a else a + 1) +
            countActive ((renderBucketGo rest
              (insertPrev prev n.id
                (if n.isExiting then (lookupPrev prev n.id).getD a else a))
              (if n.isExiting then a else a + 1)).1.take j) =
          a + countActive ((renderBucketGo (n :: rest) prev a).1.take
            (Nat.succ j)) := by
        rw [htake, countActive_cons]
        cases n.isExiting
        · simp only [Bool.false_eq_true, if_false]
          omega
        · simp only [if_true]
          omega
      rw [hget, htake] at *
      rw [ih _ _ hnd2 j h2, hlook, harith, htake]

theorem lookupPrev_cleanup (notifications : List NotificationProps)
    (m : PrevMap) (i : String)
    (h : i ∉ notifications.map NotificationProps.id) :
    lookupPrev (cleanupPrev notifications m) i = Option.none := by
  induction m with
  | nil => rfl
  | cons p rest ih =>
    rcases p with ⟨pk, pv⟩
    rw [cleanupPrev, List.filter_cons]
    by_cases hin : (notifications.map (fun n => n.id)).contains pk
    · have hmem2 : pk ∈ notifications.map (fun n => n.id) := by
        simpa [List.contains] using hin
      have hpk : ¬ pk = i := by
        intro hcontra
        apply h
        rw [← hcontra]
        exact hmem2
      simp only [hin, if_pos, lookupPrev, hpk, if_false]
      exact ih
    · simp only [hin]
      simpa [cleanupPrev] using ih

/-- Counterexample to C2 as stated: a bucket whose single entry is
already exiting while the side map holds no record for its id is still
rendered, with the counter value as its index, so the exiting entry does
not receive a recorded index. -/
theorem bucket_indices_claim_counterexample :
    ¬ specExitingUsesRecordedIndex [exitingNoRecord] [] := by
  intro hspec
  have h := hspec ⟨"a", 0, true⟩ (by decide) rfl
  exact Option.noConfusion h

/-- C2 (amended): within a rendered bucket the stacking index of a
non-exiting card is the count of non-exiting cards before it (a counter
incremented once per non-exiting entry in list order), an exiting card
receives the index recorded for its id in the side map when a record
exists and otherwise falls back to the current counter value, and
cleanup removes the side-map record of every id absent from the live
list. -/
theorem bucket_indices_amended :
    (∀ (bucket : List NotificationProps) (prev : PrevMap),
      (bucket.map NotificationProps.id).Nodup →
      ∀ (i : Nat) (h : i < (renderBucket bucket prev).1.length),
        ((renderBucket bucket prev).1.get ⟨i, h⟩).index =
          if ((renderBucket bucket prev).1.get ⟨i, h⟩).isExiting then
            (lookupPrev prev
                (((renderBucket bucket prev).1.get ⟨i, h⟩).id)).getD
              (countActive ((renderBucket bucket prev).1.take i))
          else countActive ((renderBucket bucket prev).1.take i)) ∧
    (∀ (notifications : List NotificationProps) (m : PrevMap) (i : String),
      i ∉ notifications.map NotificationProps.id →
      lookupPrev (cleanupPrev notifications m) i = Option.none) := by
  constructor
  · intro bucket prev hnd i h
    have hnd7 : ((bucket.take 7).map NotificationProps.id).Nodup := by
      rw [List.map_take]
      exact List.Nodup.sublist (List.take_sublist 7 _) hnd
    have hmain := renderBucketGo_index (bucket.take 7) prev 0 hnd7 i h
    simpa [renderBucket] using hmain
  · intro notifications m i h
    exact lookupPrev_cleanup notifications m i h

/-- Witness for the amended C2 at a concrete bucket: behind one live
entry, an exiting entry with a recorded index 3 renders with index 3,
and cleanup of a list without id b erases the record for b. -/
theorem bucket_indices_amended_witness :
    (∃ h : 1 < (renderBucket
        [{ id := "a" }, { id := "b", isExiting := true }]
        [("b", 3)]).1.length,
      ((renderBucket
        [{ id := "a" }, { id := "b", isExiting := true }]
        [("b", 3)]).1.get ⟨1, h⟩).index = 3) ∧
    lookupPrev (cleanupPrev [{ id := "a" }] [("b", 3)]) "b" =
      Option.none := by
  constructor
  · refine ⟨by decide, ?_⟩
    have h2 := (bucket_indices_amended).1
      [{ id := "a" }, { id := "b", isExiting := true }] [("b", 3)]
      (by decide) 1 (by decide)
    exact h2.trans (by decide)
  · exact (bucket_indices_amended).2 [{ id := "a" }] [("b", 3)] "b"
      (by decide)

theorem renderAll_foldl_ids (notifications : List NotificationProps) :
    ∀ (keys : List String) (p : List RenderedCard × PrevMap),
      ((keys.foldl
        (fun acc key =>
          let r := renderBucket (groupFor notifications key) acc.2
          (acc.1 ++ r.1, r.2)) p).1.map RenderedCard.id) =
        p.1.map RenderedCard.id ++
          (keys.map (fun key =>
            ((groupFor notifications key).take 7).map
              NotificationProps.id)).flatten := by
  intro keys
  induction keys with
  | nil => intro p; simp
  | cons key rest ih =>
    intro p
    rw [List.foldl_cons, ih]
    simp only [List.map_append, List.map_cons, List.flatten_cons,
      renderBucket, renderBucketGo_map_id, List.append_assoc]

/-- C3: every notification falls in one of the 6 anchor buckets, an
entry with no align lands in the top-middle bucket, membership in a
group is exactly matching its bucket key, and a full render pass emits
the capped buckets in the fixed ORDER sequence. -/
theorem buckets_partition_fixed_order
    (notifications : List NotificationProps) (prev : PrevMap) :
    ORDER.length = 6 ∧
    (∀ n : NotificationProps, bucketKey n ∈ ORDER) ∧
    (∀ n : NotificationProps,
      n.align = Option.none → bucketKey n = "top-middle") ∧
    (∀ n ∈ notifications, ∀ key,
      (n ∈ groupFor notifications key ↔ bucketKey n = key)) ∧
    (renderAll notifications prev).1.map RenderedCard.id =
      (ORDER.map (fun key =>
        ((groupFor notifications key).take 7).map
          NotificationProps.id)).flatten := by
  refine ⟨rfl, ?_, ?_, ?_, ?_⟩
  · intro n
    rcases hn : n.align with _ | ⟨v, h⟩
    · rw [bucketKey, hn]
      decide
    · rw [bucketKey, hn]
      cases v <;> cases h <;> decide
  · intro n hn
    rw [bucketKey, hn]
    decide
  · intro n hn key
    constructor
    · intro hmem
      rcases (List.mem_filter.mp hmem) with ⟨_, hkey⟩
      exact of_decide_eq_true hkey
    · intro hkey
      exact List.mem_filter.mpr ⟨hn, decide_eq_true hkey⟩
  · rw [renderAll]
    have h := renderAll_foldl_ids notifications ORDER ([], prev)
    simpa using h

/-- Witness for C3 at a concrete two-entry list: the unaligned entry
keys to top-middle and belongs to that group, and the render pass emits
the top-middle card before the bottom-left card. -/
theorem buckets_partition_fixed_order_witness :
    bucketKey ({ id := "a" } : NotificationProps) = "top-middle" ∧
    ({ id := "a" } : NotificationProps) ∈
      groupFor
        [{ id := "a" },
         { id := "b", align := Option.some (VAlign.bottom, HAlign.left) }]
        "top-middle" ∧
    (renderAll
      [{ id := "a" },
       { id := "b", align := Option.some (VAlign.bottom, HAlign.left) }]
      []).1.map RenderedCard.id = ["a", "b"] := by
  refine ⟨?_, ?_, ?_⟩
  · exact (buckets_partition_fixed_order [] []).2.2.1 { id := "a" } rfl
  · exact ((buckets_partition_fixed_order
      [{ id := "a" },
       { id := "b", align := Option.some (VAlign.bottom, HAlign.left) }]
      []).2.2.2.1 { id := "a" } (by decide) "top-middle").mpr (by decide)
  · have h := (buckets_partition_fixed_order
      [{ id := "a" },
       { id := "b", align := Option.some (VAlign.bottom, HAlign.left) }]
      []).2.2.2.2
    exact h.trans (by decide)

/-- C4: in colored mode none, with the theme mode fixed, the computed
colors equal the current palette's none entry on all three channels, so
they coincide for any two types and any two overrides (including no
override). -/
theorem colored_none_ignores_type_and_override
    (t1 t2 : NType) (u1 u2 : Option NotificationThemeType)
    (lightTheme darkTheme : NType → NotificationThemeType)
    (mode : ThemeMode) :
    computeColors ColoredMode.none t1 u1 lightTheme darkTheme mode =
      computeColors ColoredMode.none t2 u2 lightTheme darkTheme mode ∧
    computeColors ColoredMode.none t1 u1 lightTheme darkTheme mode =
      ⟨(paletteFor lightTheme darkTheme mode NType.none).backgroundColor,
       (paletteFor lightTheme darkTheme mode NType.none).borderColor,
       (paletteFor lightTheme darkTheme mode NType.none).fontColor⟩ := by
  exact ⟨rfl, rfl⟩

/-- Counterexample to C5 as stated: a pointer-up with recorded offset
(100, 0), displacement exactly the 100 px threshold, does not trigger
exit; the code requires the displacement to strictly exceed the
threshold. -/
theorem pointerUp_claim_counterexample :
    ¬ specPointerUpExitAtThreshold stateAtThreshold := by
  intro hspec
  have h := (hspec rfl rfl).1 (by decide)
  exact absurd h (by decide)

/-- C5 (amended): on pointer-up during a drag that was not already
auto-closed, exit triggers exactly when the recorded offset displacement
strictly exceeds the 100 px threshold; at or below the threshold the
offset snaps back to zero and no exit occurs. -/
theorem pointerUp_threshold_strict (s : CardState)
    (hstart : s.dragStart.isSome = true)
    (_hlatch : s.isDraggingOut = false) :
    (DRAG_CLOSE_DISTANCE * DRAG_CLOSE_DISTANCE <
        s.dragOffset.x * s.dragOffset.x + s.dragOffset.y * s.dragOffset.y →
      (handlePointerUp s).exitCalls = s.exitCalls + 1) ∧
    (s.dragOffset.x * s.dragOffset.x + s.dragOffset.y * s.dragOffset.y ≤
        DRAG_CLOSE_DISTANCE * DRAG_CLOSE_DISTANCE →
      (handlePointerUp s).exitCalls = s.exitCalls ∧
        (handlePointerUp s).dragOffset = ⟨0, 0⟩) := by
  rcases hs : s.dragStart with _ | start
  · rw [hs] at hstart
    exact absurd hstart (by simp)
  · constructor
    · intro h
      have hb : hypotGt s.dragOffset.x s.dragOffset.y
          DRAG_CLOSE_DISTANCE = true := decide_eq_true h
      simp [handlePointerUp, hs, hb, finalizeDrag]
    · intro h
      have hb : hypotGt s.dragOffset.x s.dragOffset.y
          DRAG_CLOSE_DISTANCE = false :=
        decide_eq_false (not_lt.mpr h)
      constructor
      · simp [handlePointerUp, hs, hb, finalizeDrag]
      · simp [handlePointerUp, hs, hb, finalizeDrag]

/-- Witness for the amended C5: displacement 101 exits once, and
displacement 60 snaps the offset back to zero without exit. -/
theorem pointerUp_threshold_strict_witness :
    (handlePointerUp
      { dragOffset := ⟨101, 0⟩,
        dragStart := Option.some ⟨0, 0⟩ }).exitCalls = 1 ∧
    (handlePointerUp
      { dragOffset := ⟨60, 0⟩,
        dragStart := Option.some ⟨0, 0⟩ }).dragOffset = ⟨0, 0⟩ := by
  constructor
  · exact (pointerUp_threshold_strict
      { dragOffset := ⟨101, 0⟩, dragStart := Option.some ⟨0, 0⟩ }
      rfl rfl).1 (by decide)
  · exact ((pointerUp_threshold_strict
      { dragOffset := ⟨60, 0⟩, dragStart := Option.some ⟨0, 0⟩ }
      rfl rfl).2 (by decide)).2

/-- C6: when a drag is finalized with exit, each axis of the offset
independently gains a DRAG_RELEASE_PUSH of the same sign when its
magnitude exceeds 6 px, stays unchanged when its magnitude is at most
6 px, and the exit is triggered exactly once. -/
theorem finalize_exit_push (s : CardState) :
    (6 < s.dragOffset.x →
      (finalizeDrag true s).dragOffset.x =
        s.dragOffset.x + DRAG_RELEASE_PUSH) ∧
    (s.dragOffset.x < -6 →
      (finalizeDrag true s).dragOffset.x =
        s.dragOffset.x - DRAG_RELEASE_PUSH) ∧
    (s.dragOffset.x.natAbs ≤ 6 →
      (finalizeDrag true s).dragOffset.x = s.dragOffset.x) ∧
    (6 < s.dragOffset.y →
      (finalizeDrag true s).dragOffset.y =
        s.dragOffset.y + DRAG_RELEASE_PUSH) ∧
    (s.dragOffset.y < -6 →
      (finalizeDrag true s).dragOffset.y =
        s.dragOffset.y - DRAG_RELEASE_PUSH) ∧
    (s.dragOffset.y.natAbs ≤ 6 →
      (finalizeDrag true s).dragOffset.y = s.dragOffset.y) ∧
    (finalizeDrag true s).exitCalls = s.exitCalls + 1 := by
  refine ⟨?_, ?_, ?_, ?_, ?_, ?_, rfl⟩
  · intro h
    have hc : (6 : Nat) < s.dragOffset.x.natAbs := by omega
    have hsign : s.dragOffset.x.sign = 1 :=
      Int.sign_eq_one_iff_pos.mpr (by omega)
    simp [finalizeDrag, decide_eq_true hc, hsign, DRAG_RELEASE_PUSH]
  · intro h
    have hc : (6 : Nat) < s.dragOffset.x.natAbs := by omega
    have hsign : s.dragOffset.x.sign = -1 :=
      Int.sign_eq_neg_one_iff_neg.mpr (by omega)
    simp [finalizeDrag, decide_eq_true hc, hsign, DRAG_RELEASE_PUSH,
      sub_eq_add_neg]
  · intro h
    have hc : ¬ (6 : Nat) < s.dragOffset.x.natAbs := by omega
    simp [finalizeDrag, decide_eq_false hc]
  · intro h
    have hc : (6 : Nat) < s.dragOffset.y.natAbs := by omega
    have hsign : s.dragOffset.y.sign = 1 :=
      Int.sign_eq_one_iff_pos.mpr (by omega)
    simp [finalizeDrag, decide_eq_true hc, hsign, DRAG_RELEASE_PUSH]
  · intro h
    have hc : (6 : Nat) < s.dragOffset.y.natAbs := by omega
    have hsign : s.dragOffset.y.sign = -1 :=
      Int.sign_eq_neg_one_iff_neg.mpr (by omega)
    simp [finalizeDrag, decide_eq_true hc, hsign, DRAG_RELEASE_PUSH,
      sub_eq_add_neg]
  · intro h
    have hc : ¬ (6 : Nat) < s.dragOffset.y.natAbs := by omega
    simp [finalizeDrag, decide_eq_false hc]

/-- Witness for C6: an offset of (50, -300) is pushed to (170, -420)
with one exit call, and an offset of (4, -3) is left unchanged. -/
theorem finalize_exit_push_witness :
    (finalizeDrag true
      { dragOffset := ⟨50, -300⟩ } : CardState).dragOffset.x = 170 ∧
    (finalizeDrag true
      { dragOffset := ⟨50, -300⟩ } : CardState).dragOffset.y = -420 ∧
    (finalizeDrag true
      { dragOffset := ⟨4, -3⟩ } : CardState).dragOffset.x = 4 ∧
    (finalizeDrag true
      { dragOffset := ⟨4, -3⟩ } : CardState).dragOffset.y = -3 ∧
    (finalizeDrag true
      { dragOffset := ⟨50, -300⟩ } : CardState).exitCalls = 1 := by
  refine ⟨?_, ?_, ?_, ?_, ?_⟩
  · have h := (finalize_exit_push { dragOffset := ⟨50, -300⟩ }).1
      (by decide)
    exact h.trans (by decide)
  · have h := (finalize_exit_push { dragOffset := ⟨50, -300⟩ }).2.2.2.2.1
      (by decide)
    exact h.trans (by decide)
  · exact (finalize_exit_push { dragOffset := ⟨4, -3⟩ }).2.2.1 (by decide)
  · exact (finalize_exit_push { dragOffset := ⟨4, -3⟩ }).2.2.2.2.2.1
      (by decide)
  · exact (finalize_exit_push { dragOffset := ⟨50, -300⟩ }).2.2.2.2.2.2

/-- C7: a pointer-move whose movement from the drag start exceeds 4 px
sets the click-suppression flag; the click handler runs the provided
callback exactly when the flag is unset at click time; consulting the
flag at click time leaves it unset; and a fresh pointer-down clears the
flag. -/
theorem click_suppression_behavior (s : CardState) (c start : Vec2)
    (hs : s.dragStart = Option.some start)
    (hmove : 4 * 4 <
      (c.x - start.x) * (c.x - start.x) +
        (c.y - start.y) * (c.y - start.y)) :
    (handlePointerMove c s).clickSuppressed = true ∧
    (∀ s2 : CardState, (handleClick s2).2 = !s2.clickSuppressed) ∧
    (∀ s2 : CardState, (handleClick s2).1.clickSuppressed = false) ∧
    (∀ (s2 : CardState) (c2 : Vec2),
      (handlePointerDown c2 s2).clickSuppressed = false) := by
  refine ⟨?_, ?_, ?_, ?_⟩
  · have hb : hypotGt (c.x - start.x) (c.y - start.y) 4 = true :=
      decide_eq_true hmove
    simp only [handlePointerMove, hs, hb, if_true]
    split
    · simp [finalizeDrag]
    · simp
  · intro s2
    cases hcs : s2.clickSuppressed <;> simp [handleClick, hcs]
  · intro s2
    cases hcs : s2.clickSuppressed <;> simp [handleClick, hcs]
  · intro s2 c2
    rfl

/-- Witness for C7: a 3-4-5 move (magnitude 5) from the origin sets the
flag, a suppressed click swallows the callback and clears the flag, an
unsuppressed click fires it, and pointer-down clears the flag. -/
theorem click_suppression_behavior_witness :
    (handlePointerMove ⟨3, 4⟩
      { dragStart := Option.some ⟨0, 0⟩ }).clickSuppressed = true ∧
    (handleClick { clickSuppressed := true }).2 = false ∧
    (handleClick { clickSuppressed := true }).1.clickSuppressed = false ∧
    (handlePointerDown ⟨0, 0⟩
      { clickSuppressed := true }).clickSuppressed = false := by
  have h := click_suppression_behavior
    { dragStart := Option.some ⟨0, 0⟩ } ⟨3, 4⟩ ⟨0, 0⟩ rfl (by decide)
  exact ⟨h.1, h.2.1 { clickSuppressed := true },
    h.2.2.1 { clickSuppressed := true },
    h.2.2.2 { clickSuppressed := true } ⟨0, 0⟩⟩

/-- Counterexample to C8 as stated: a pointer-cancel arriving after a
move auto-close (no drag start recorded, offset still at its pushed
value) leaves the offset unchanged instead of resetting it to zero. -/
theorem cancel_claim_counterexample :
    ¬ specCancelAlwaysResets stateAfterAutoClose := by
  intro hspec
  have h := hspec.1
  exact absurd h (by decide)

/-- C8 (amended): a pointer-cancel arriving with an active drag start
resets the drag offset to zero without triggering exit; a pointer-cancel
with no recorded drag start leaves the state unchanged. -/
theorem cancel_resets_active_drag (s : CardState) :
    (s.dragStart.isSome = true →
      (handlePointerCancel s).dragOffset = ⟨0, 0⟩ ∧
      (handlePointerCancel s).exitCalls = s.exitCalls) ∧
    (s.dragStart = Option.none → handlePointerCancel s = s) := by
  rcases hs : s.dragStart with _ | start
  · constructor
    · intro h
      exact absurd h (by simp)
    · intro _
      simp [handlePointerCancel, hs]
  · constructor
    · intro _
      constructor
      · simp [handlePointerCancel, hs, finalizeDrag]
      · simp [handlePointerCancel, hs, finalizeDrag]
    · intro h
      exact absurd h (by simp)

/-- Witness for the amended C8: cancel on an active drag with offset
(30, 40) snaps to zero without exit, and cancel on the latched
post-auto-close state is a strict no-op. -/
theorem cancel_resets_active_drag_witness :
    (handlePointerCancel
      { dragOffset := ⟨30, 40⟩,
        dragStart := Option.some ⟨0, 0⟩ }).dragOffset = ⟨0, 0⟩ ∧
    handlePointerCancel stateAfterAutoClose = stateAfterAutoClose := by
  constructor
  · exact ((cancel_resets_active_drag
      { dragOffset := ⟨30, 40⟩, dragStart := Option.some ⟨0, 0⟩ }).1
      rfl).1
  · exact (cancel_resets_active_drag stateAfterAutoClose).2 rfl

/-- C9: a pointer-move, pointer-up, or pointer-cancel arriving with no
recorded drag start leaves the card state exactly as it was. -/
theorem pointer_events_noop_without_drag_start (s : CardState)
    (c : Vec2) (h : s.dragStart = Option.none) :
    handlePointerMove c s = s ∧
    handlePointerUp s = s ∧
    handlePointerCancel s = s := by
  refine ⟨?_, ?_, ?_⟩
  · simp [handlePointerMove, h]
  · simp [handlePointerUp, h]
  · simp [handlePointerCancel, h]

/-- Witness for C9 on a state with nonzero offset, suppression set and
two prior exits: all three handlers return it unchanged. -/
theorem pointer_events_noop_witness :
    handlePointerMove ⟨500, 500⟩
      { dragOffset := ⟨9, 9⟩, clickSuppressed := true,
        exitCalls := 2 } =
      { dragOffset := ⟨9, 9⟩, clickSuppressed := true, exitCalls := 2 } ∧
    handlePointerUp
      { dragOffset := ⟨9, 9⟩, clickSuppressed := true,
        exitCalls := 2 } =
      { dragOffset := ⟨9, 9⟩, clickSuppressed := true, exitCalls := 2 } ∧
    handlePointerCancel
      { dragOffset := ⟨9, 9⟩, clickSuppressed := true,
        exitCalls := 2 } =
      { dragOffset := ⟨9, 9⟩, clickSuppressed := true, exitCalls := 2 } :=
  pointer_events_noop_without_drag_start
    { dragOffset := ⟨9, 9⟩, clickSuppressed := true, exitCalls := 2 }
    ⟨500, 500⟩ rfl

theorem handlePointerMove_latched (c : Vec2) (s : CardState)
    (h : s.isDraggingOut = true) :
    (handlePointerMove c s).isDraggingOut = true ∧
    (handlePointerMove c s).exitCalls = s.exitCalls := by
  rcases hs : s.dragStart with _ | start
  · simp [handlePointerMove, hs, h]
  · simp only [handlePointerMove, hs]
    split <;> simp [h]

theorem latch_foldl (evs : List CardEvent) :
    ∀ s : CardState, s.isDraggingOut = true →
      (∀ e ∈ evs, isDownOrMove e = true) →
      ((evs.foldl step s).isDraggingOut = true ∧
       (evs.foldl step s).exitCalls = s.exitCalls) := by
  induction evs with
  | nil =>
    intro s h _
    exact ⟨h, rfl⟩
  | cons e rest ih =>
    intro s h hall
    have he := hall e (List.mem_cons_self e rest)
    have hrest : ∀ e2 ∈ rest, isDownOrMove e2 = true :=
      fun e2 m => hall e2 (List.mem_cons_of_mem e m)
    rw [List.foldl_cons]
    cases e with
    | pointerDown c =>
      have h2 : (step s (CardEvent.pointerDown c)).isDraggingOut = true := h
      have hih := ih (step s (CardEvent.pointerDown c)) h2 hrest
      exact ⟨hih.1, hih.2⟩
    | pointerMove c =>
      have hm := handlePointerMove_latched c s h
      have hih := ih (step s (CardEvent.pointerMove c)) hm.1 hrest
      exact ⟨hih.1, hih.2.trans hm.2⟩
    | pointerUp =>
      exact absurd he (by simp [isDownOrMove])
    | pointerCancel =>
      exact absurd he (by simp [isDownOrMove])

/-- C10: a pointer-down never changes the drag-out latch; from any state
with the latch set, any sequence of pointer-down and pointer-move events
keeps the latch set and triggers no exit; and a pointer-up or
pointer-cancel with an active drag start clears the latch. -/
theorem dragout_latch_persists (s : CardState) :
    (∀ c : Vec2,
      (handlePointerDown c s).isDraggingOut = s.isDraggingOut) ∧
    (s.isDraggingOut = true →
      ∀ evs : List CardEvent, (∀ e ∈ evs, isDownOrMove e = true) →
        (evs.foldl step s).isDraggingOut = true ∧
        (evs.foldl step s).exitCalls = s.exitCalls) ∧
    (s.dragStart.isSome = true →
      (handlePointerUp s).isDraggingOut = false ∧
      (handlePointerCancel s).isDraggingOut = false) := by
  refine ⟨fun c => rfl, ?_, ?_⟩
  · intro h evs hall
    exact latch_foldl evs s h hall
  · intro h
    rcases hs : s.dragStart with _ | start
    · exact absurd h (by simp [hs])
    · constructor
      · simp [handlePointerUp, hs]
      · simp [handlePointerCancel, hs]

/-- Witness for C10: with the latch set, a fresh pointer-down followed by
a 200 px pointer-move triggers no exit and keeps the latch, while a
pointer-up on the same starting state clears the latch. -/
theorem dragout_latch_persists_witness :
    ([CardEvent.pointerDown ⟨0, 0⟩,
      CardEvent.pointerMove ⟨200, 0⟩].foldl step
        { dragStart := Option.some ⟨0, 0⟩,
          isDraggingOut := true }).exitCalls = 0 ∧
    ([CardEvent.pointerDown ⟨0, 0⟩,
      CardEvent.pointerMove ⟨200, 0⟩].foldl step
        { dragStart := Option.some ⟨0, 0⟩,
          isDraggingOut := true }).isDraggingOut = true ∧
    (handlePointerUp
      { dragStart := Option.some ⟨0, 0⟩,
        isDraggingOut := true }).isDraggingOut = false := by
  have h := (dragout_latch_persists
    { dragStart := Option.some ⟨0, 0⟩, isDraggingOut := true }).2.1 rfl
    [CardEvent.pointerDown ⟨0, 0⟩, CardEvent.pointerMove ⟨200, 0⟩]
    (by decide)
  exact ⟨h.2, h.1,
    ((dragout_latch_persists
      { dragStart := Option.some ⟨0, 0⟩,
        isDraggingOut := true }).2.2 rfl).1⟩
